import Mathlib

/-!
Shallow embedding of `parse-dnsmasq-lease.go`, which contains two programs:

* the CLI variant (`main` with `LeaseEntry`): reads the lease file line by
  line, requires exactly 5 whitespace-separated fields per line, and prints
  an aligned text table to stdout;
* the web variant (`parse-dnsmasq-lease-webui`, with `Lease`, `parseLeases`
  and `leaseHandler`): requires at least 4 fields, normalizes a hostname of
  `*` to `N/A`, defaults a missing fifth field (client ID) to `N/A`, and
  serves an HTML table over HTTP.

Modeling conventions:

* a file's observable state is a `FileState`: either opening fails, or the
  scanner delivers a list of lines followed by an optional read error
  (`bufio.Scanner`: `Scan` returns the successfully read lines, then
  `Err()` reports an I/O error, if any, once `Scan` returns false);
* `time.Unix(sec, 0)` is injective in `sec`, so a record's `ExpiryTime` is
  modeled by the Unix seconds value (`expiryUnix`); rendering a timestamp
  in local time is modeled by an arbitrary formatting function
  `fmtTime : Int → String` passed to the renderers;
* stdout of the CLI and the HTML table body are modeled as lists of rows,
  each row the list of its cell strings, before `tabwriter` alignment
  resp. HTML markup;
* log output (stderr diagnostics) is modeled by the `warnings` list the
  parse loops accumulate: the Go code emits exactly one `log.Printf`
  warning per skipped line.
-/

/-- Whitespace as decided by Go's `strings.Fields`, which uses
`unicode.IsSpace`: for Latin-1 code points these are `\t`, `\n`, vertical
tab, form feed, `\r`, space, U+0085 and U+00A0.  (Higher Unicode
White_Space code points are not modeled; no lease-file character class in
the spec involves them.) -/
def goIsSpace (c : Char) : Bool :=
  c = ' ' || c = '\t' || c = '\n' || c = '\u000B' || c = '\u000C' ||
  c = '\r' || c = '\u0085' || c = '\u00A0'

/-- Helper for `goFields`: splits a character list on runs of whitespace,
accumulating the current (reversed) field in `cur`. -/
def splitFieldsAux : List Char → List Char → List (List Char)
  | [], cur => if cur.isEmpty then [] else [cur.reverse]
  | c :: cs, cur =>
    if goIsSpace c then
      if cur.isEmpty then splitFieldsAux cs []
      else cur.reverse :: splitFieldsAux cs []
    else
      splitFieldsAux cs (c :: cur)

/-- Go's `strings.Fields`: split around runs of whitespace; no empty
fields are produced. -/
def goFields (s : String) : List String :=
  (splitFieldsAux s.data []).map String.mk

/-- Decimal digit value of a character, if it is one. -/
def digitVal (c : Char) : Option Nat :=
  if '0' ≤ c && c ≤ '9' then some (c.toNat - '0'.toNat) else none

/-- Helper for `goParseInt64`: reads a nonempty run of decimal digits,
most significant first, into `acc`; fails on any non-digit. -/
def parseDigitsAux : List Char → Nat → Option Nat
  | [], acc => some acc
  | c :: cs, acc =>
    match digitVal c with
    | some d => parseDigitsAux cs (acc * 10 + d)
    | none => none

def int64Max : Int := 9223372036854775807

def int64Min : Int := -9223372036854775808

/-- Go's `strconv.ParseInt(s, 10, 64)`, as used for the timestamp field:
an optional single leading `+` or `-` sign, then one or more decimal
digits, and the value must fit in a signed 64-bit integer; `none` models
a non-nil error (syntax or range). -/
def goParseInt64 (s : String) : Option Int :=
  match s.data with
  | [] => none
  | c :: cs =>
    let neg : Bool := c = '-'
    let ds : List Char := if c = '+' || c = '-' then cs else c :: cs
    if ds.isEmpty then none
    else
      match parseDigitsAux ds 0 with
      | none => none
      | some n =>
        let v : Int := if neg then -(n : Int) else (n : Int)
        if int64Min ≤ v ∧ v ≤ int64Max then some v else none

/-- One parsed DHCP lease record.  Both Go variants (`LeaseEntry` in the
CLI, `Lease` in the web UI) have exactly these fields; `ExpiryTime =
time.Unix(expiryUnix, 0)` is represented by its Unix seconds. -/
structure LeaseEntry where
  expiryUnix : Int
  macAddress : String
  ipAddress : String
  hostname : String
  clientID : String
deriving Repr, DecidableEq

/-- Why a line was skipped: wrong whitespace-split field count, or a first
field that `strconv.ParseInt` rejects. -/
inductive SkipReason where
  | fieldCount (nFields : Nat)
  | timestamp (field0 : String)
deriving Repr, DecidableEq

/-- One iteration of the CLI variant's scan loop, on one line: exactly 5
fields required, first field parsed with `strconv.ParseInt(_, 10, 64)`;
fields map positionally to the `LeaseEntry` fields, verbatim. -/
def parseLineCLIE (line : String) : Except SkipReason LeaseEntry :=
  match goFields line with
  | [f0, f1, f2, f3, f4] =>
    match goParseInt64 f0 with
    | some t => .ok ⟨t, f1, f2, f3, f4⟩
    | none => .error (.timestamp f0)
  | fs => .error (.fieldCount fs.length)

/-- The record the CLI variant appends for a line, if any. -/
def parseLineCLI (line : String) : Option LeaseEntry :=
  (parseLineCLIE line).toOption

/-- A `log.Printf` warning of the CLI scan loop (one per skipped line). -/
inductive CliWarning where
  | invalidFieldCount (lineNumber : Nat) (nFields : Nat) (line : String)
  | invalidTimestamp (lineNumber : Nat) (field0 : String)
deriving Repr, DecidableEq

/-- State of the CLI scan loop: `lineNumber`, the `leases` slice, and the
warnings logged so far. -/
structure CliState where
  lineNumber : Nat
  leases : List LeaseEntry
  warnings : List CliWarning
deriving Repr, DecidableEq

def cliInit : CliState := ⟨0, [], []⟩

/-- One iteration of the CLI variant's `for scanner.Scan()` loop. -/
def cliStep (st : CliState) (line : String) : CliState :=
  let n := st.lineNumber + 1
  match parseLineCLIE line with
  | .ok e => ⟨n, st.leases ++ [e], st.warnings⟩
  | .error (.fieldCount k) =>
    ⟨n, st.leases, st.warnings ++ [.invalidFieldCount n k line]⟩
  | .error (.timestamp f0) =>
    ⟨n, st.leases, st.warnings ++ [.invalidTimestamp n f0]⟩

/-- The CLI scan loop run over all lines the scanner delivers. -/
def cliLoop (lines : List String) : CliState :=
  lines.foldl cliStep cliInit

/-- The `leases` slice after the CLI scan loop. -/
def parseLeasesCLI (lines : List String) : List LeaseEntry :=
  (cliLoop lines).leases

/-- The warnings logged by the CLI scan loop. -/
def cliWarnings (lines : List String) : List CliWarning :=
  (cliLoop lines).warnings

/-- One iteration of the web variant's scan loop, on one line: at least 4
fields required; hostname `*` is normalized to `N/A`; the client ID
defaults to `N/A` when there is no fifth field. -/
def parseLineWebE (line : String) : Except SkipReason LeaseEntry :=
  let fs := goFields line
  if fs.length < 4 then .error (.fieldCount fs.length)
  else
    match goParseInt64 (fs.getD 0 "") with
    | none => .error (.timestamp (fs.getD 0 ""))
    | some t =>
      let hn := fs.getD 3 ""
      .ok ⟨t, fs.getD 1 "", fs.getD 2 "",
           if hn = "*" then "N/A" else hn,
           if 4 < fs.length then fs.getD 4 "" else "N/A"⟩

/-- The record the web variant appends for a line, if any. -/
def parseLineWeb (line : String) : Option LeaseEntry :=
  (parseLineWebE line).toOption

/-- A `log.Printf` warning of the web scan loop (one per skipped line). -/
inductive WebWarning where
  | tooFewFields (line : String)
  | badTimestamp (line : String)
deriving Repr, DecidableEq

/-- State of the web variant's scan loop. -/
structure WebState where
  leases : List LeaseEntry
  warnings : List WebWarning
deriving Repr, DecidableEq

/-- One iteration of the web variant's `for scanner.Scan()` loop. -/
def webStep (st : WebState) (line : String) : WebState :=
  match parseLineWebE line with
  | .ok e => ⟨st.leases ++ [e], st.warnings⟩
  | .error (.fieldCount _) => ⟨st.leases, st.warnings ++ [.tooFewFields line]⟩
  | .error (.timestamp _) => ⟨st.leases, st.warnings ++ [.badTimestamp line]⟩

/-- The web scan loop run over all lines the scanner delivers. -/
def webLoop (lines : List String) : WebState :=
  lines.foldl webStep ⟨[], []⟩

/-- The `leases` slice after the web scan loop. -/
def parseLeasesWebLines (lines : List String) : List LeaseEntry :=
  (webLoop lines).leases

/-- The warnings logged by the web scan loop. -/
def webWarnings (lines : List String) : List WebWarning :=
  (webLoop lines).warnings

/-- Observable state of the lease file for one run/request: opening the
file fails, or the scanner yields `lines` and then `readFailure`
(`scanner.Err()`), `none` meaning a clean end of file. -/
inductive FileState where
  | openFailure (cause : String)
  | content (lines : List String) (readFailure : Option String)
deriving Repr, DecidableEq

/-- The error value `parseLeases` returns (web variant): it wraps the
underlying cause and names the file path. -/
inductive ParseError where
  | openFailed (path : String) (cause : String)
  | readFailed (path : String) (cause : String)
deriving Repr, DecidableEq

/-- The formatted text of a `ParseError` (`fmt.Errorf` wrapping). -/
def ParseError.message : ParseError → String
  | .openFailed p c => "не удалось открыть файл " ++ p ++ ": " ++ c
  | .readFailed p c => "ошибка при чтении файла " ++ p ++ ": " ++ c

/-- The web variant's `parseLeases`: open the file, run the scan loop over
the delivered lines, then check `scanner.Err()`; on a read error it
returns `(nil, err)`, so the records accumulated by the loop are
discarded. -/
def parseLeases (path : String) (fs : FileState) :
    Except ParseError (List LeaseEntry) :=
  match fs with
  | .openFailure cause => .error (.openFailed path cause)
  | .content lines readFail =>
    let st := lines.foldl webStep ⟨[], []⟩
    match readFail with
    | some cause => .error (.readFailed path cause)
    | none => .ok st.leases

/-- CLI variant: default lease file path. -/
def defaultLeaseFilePath : String := "/var/lib/misc/dnsmasq.leases"

/-- CLI variant: name of the overriding environment variable. -/
def envVarLeasePath : String := "DNSMASQ_LEASES"

/-- The CLI variant's path resolution: `os.Getenv(envVarLeasePath)`
(empty string when unset), falling back to the default on empty. -/
def cliLeaseFilePath (getenv : String → String) : String :=
  if getenv envVarLeasePath = "" then defaultLeaseFilePath
  else getenv envVarLeasePath

/-- The web variant's lease file path: a compile-time constant. -/
def leasesFilePath : String := "/var/lib/misc/dnsmasq.leases"

/-- The web variant's path resolution as a function of the environment:
the code never consults the environment, `leaseHandler` passes the
constant `leasesFilePath` to `parseLeases`. -/
def webLeaseFilePath (_getenv : String → String) : String :=
  leasesFilePath

/-- Body of an HTTP response of the web variant: either the plain-text
`http.Error` body, or the rendered HTML page, of which we model the table
rows (cell texts) and the footer's source path. -/
inductive ResponseBody where
  | errorText (msg : String)
  | htmlPage (rows : List (List String)) (sourcePath : String)
deriving Repr, DecidableEq

structure HttpResponse where
  status : Nat
  body : ResponseBody
deriving Repr, DecidableEq

/-- Cell texts of one HTML table row for a lease. -/
def htmlRow (fmtTime : Int → String) (l : LeaseEntry) : List String :=
  [fmtTime l.expiryUnix, l.macAddress, l.ipAddress, l.hostname, l.clientID]

/-- The HTML table body: one row per lease, or the template's single
`{{else}}` row when there are no leases. -/
def htmlTableBody (fmtTime : Int → String) (leases : List LeaseEntry) :
    List (List String) :=
  if leases.isEmpty then [["Нет активных аренд или не удалось прочитать файл."]]
  else leases.map (htmlRow fmtTime)

/-- The web variant's `leaseHandler` on one request, as a function of the
lease file's state at request time: re-parse, then either `http.Error`
with status 500 (the message wraps the parse error, which names the
path), or a 200 HTML page rendered from the fresh parse. -/
def leaseHandler (fmtTime : Int → String) (fs : FileState) : HttpResponse :=
  match parseLeases leasesFilePath fs with
  | .error e =>
    ⟨500, .errorText
      ("Не удалось прочитать или обработать файл leases: " ++
        ParseError.message e ++ "\n")⟩
  | .ok leases => ⟨200, .htmlPage (htmlTableBody fmtTime leases) leasesFilePath⟩

/-- The CLI's message when no leases were parsed. -/
def noEntriesMessage : String := "No lease entries found or file is empty."

/-- The CLI table's header row cells. -/
def cliHeaderRow : List String :=
  ["Expiry Time", "MAC Address", "IP Address", "Hostname", "Client ID"]

/-- The CLI table's separator row cells. -/
def cliSeparatorRow : List String :=
  ["-----------", "-----------", "----------", "--------", "---------"]

/-- Cell texts of one CLI table row for a lease. -/
def cliRow (fmtTime : Int → String) (l : LeaseEntry) : List String :=
  [fmtTime l.expiryUnix, l.macAddress, l.ipAddress, l.hostname, l.clientID]

/-- The CLI variant's `main` after path resolution: exit status and the
rows written to stdout.  Open failure and a scanner error reach
`log.Fatalf` (exit 1, nothing on stdout; the scanner error is only
checked after the loop, but also nothing has been printed by then).  With
no records, only the no-entries message is printed and the exit status is
0; otherwise header, separator and one row per lease. -/
def cliRun (fmtTime : Int → String) (fs : FileState) :
    Nat × List (List String) :=
  match fs with
  | .openFailure _ => (1, [])
  | .content lines readFail =>
    let leases := parseLeasesCLI lines
    match readFail with
    | some _ => (1, [])
    | none =>
      if leases.isEmpty then (0, [[noEntriesMessage]])
      else (0, cliHeaderRow :: cliSeparatorRow :: leases.map (cliRow fmtTime))

/-! ## Helper lemmas -/

lemma cliStep_leases (st : CliState) (line : String) :
    (cliStep st line).leases = st.leases ++ (parseLineCLI line).toList := by
  unfold cliStep parseLineCLI
  cases h : parseLineCLIE line with
  | ok e => simp [Except.toOption]
  | error r => cases r <;> simp [Except.toOption]

lemma cliStep_warnings_length (st : CliState) (line : String) :
    (cliStep st line).warnings.length =
      st.warnings.length + (if (parseLineCLI line).isNone then 1 else 0) := by
  unfold cliStep parseLineCLI
  cases h : parseLineCLIE line with
  | ok e => simp [Except.toOption]
  | error r => cases r <;> simp [Except.toOption]

lemma foldl_cliStep_leases (lines : List String) :
    ∀ st : CliState, (List.foldl cliStep st lines).leases =
      st.leases ++ lines.filterMap parseLineCLI := by
  induction lines with
  | nil => intro st; simp
  | cons l ls ih =>
    intro st
    rw [List.foldl_cons, ih, cliStep_leases]
    cases h : parseLineCLI l <;> simp [List.filterMap_cons, h]

lemma foldl_cliStep_warnings_length (lines : List String) :
    ∀ st : CliState, (List.foldl cliStep st lines).warnings.length =
      st.warnings.length + lines.countP (fun l => (parseLineCLI l).isNone) := by
  induction lines with
  | nil => intro st; simp
  | cons l ls ih =>
    intro st
    rw [List.foldl_cons, ih, cliStep_warnings_length, List.countP_cons]
    cases h : parseLineCLI l <;> (simp [h]; try omega)

lemma parseLeasesCLI_eq (lines : List String) :
    parseLeasesCLI lines = lines.filterMap parseLineCLI := by
  unfold parseLeasesCLI cliLoop
  rw [foldl_cliStep_leases]
  simp [cliInit]

lemma cliWarnings_length (lines : List String) :
    (cliWarnings lines).length =
      lines.countP (fun l => (parseLineCLI l).isNone) := by
  unfold cliWarnings cliLoop
  rw [foldl_cliStep_warnings_length]
  simp [cliInit]

lemma webStep_leases (st : WebState) (line : String) :
    (webStep st line).leases = st.leases ++ (parseLineWeb line).toList := by
  unfold webStep parseLineWeb
  cases h : parseLineWebE line with
  | ok e => simp [Except.toOption]
  | error r => cases r <;> simp [Except.toOption]

lemma webStep_warnings_length (st : WebState) (line : String) :
    (webStep st line).warnings.length =
      st.warnings.length + (if (parseLineWeb line).isNone then 1 else 0) := by
  unfold webStep parseLineWeb
  cases h : parseLineWebE line with
  | ok e => simp [Except.toOption]
  | error r => cases r <;> simp [Except.toOption]

lemma foldl_webStep_leases (lines : List String) :
    ∀ st : WebState, (List.foldl webStep st lines).leases =
      st.leases ++ lines.filterMap parseLineWeb := by
  induction lines with
  | nil => intro st; simp
  | cons l ls ih =>
    intro st
    rw [List.foldl_cons, ih, webStep_leases]
    cases h : parseLineWeb l <;> simp [List.filterMap_cons, h]

lemma foldl_webStep_warnings_length (lines : List String) :
    ∀ st : WebState, (List.foldl webStep st lines).warnings.length =
      st.warnings.length + lines.countP (fun l => (parseLineWeb l).isNone) := by
  induction lines with
  | nil => intro st; simp
  | cons l ls ih =>
    intro st
    rw [List.foldl_cons, ih, webStep_warnings_length, List.countP_cons]
    cases h : parseLineWeb l <;> (simp [h]; try omega)

lemma parseLeasesWebLines_eq (lines : List String) :
    parseLeasesWebLines lines = lines.filterMap parseLineWeb := by
  unfold parseLeasesWebLines webLoop
  rw [foldl_webStep_leases]
  simp

lemma webWarnings_length (lines : List String) :
    (webWarnings lines).length =
      lines.countP (fun l => (parseLineWeb l).isNone) := by
  unfold webWarnings webLoop
  rw [foldl_webStep_warnings_length]
  simp

lemma parseLineCLI_ok (line f0 f1 f2 f3 f4 : String) (t : Int)
    (hf : goFields line = [f0, f1, f2, f3, f4])
    (ht : goParseInt64 f0 = some t) :
    parseLineCLI line = some ⟨t, f1, f2, f3, f4⟩ := by
  unfold parseLineCLI parseLineCLIE
  rw [hf]
  simp [ht, Except.toOption]

lemma parseLineWeb_ok5 (line f0 f1 f2 f3 f4 : String) (t : Int)
    (hf : goFields line = [f0, f1, f2, f3, f4])
    (ht : goParseInt64 f0 = some t) :
    parseLineWeb line = some ⟨t, f1, f2, if f3 = "*" then "N/A" else f3, f4⟩ := by
  unfold parseLineWeb parseLineWebE
  rw [hf]
  simp [ht, Except.toOption, List.getD]

lemma parseLineWeb_ok4 (line f0 f1 f2 f3 : String) (t : Int)
    (hf : goFields line = [f0, f1, f2, f3])
    (ht : goParseInt64 f0 = some t) :
    parseLineWeb line = some ⟨t, f1, f2, if f3 = "*" then "N/A" else f3, "N/A"⟩ := by
  unfold parseLineWeb parseLineWebE
  rw [hf]
  simp [ht, Except.toOption, List.getD]

lemma parseLineCLI_none_iff (line : String) :
    parseLineCLI line = none ↔
      ((goFields line).length ≠ 5 ∨
        goParseInt64 ((goFields line).getD 0 "") = none) := by
  unfold parseLineCLI parseLineCLIE
  rcases hf : goFields line with _ | ⟨f0, _ | ⟨f1, _ | ⟨f2, _ | ⟨f3, _ | ⟨f4, _ | ⟨f5, rest⟩⟩⟩⟩⟩⟩
  · simp [Except.toOption]
  · simp [Except.toOption]
  · simp [Except.toOption]
  · simp [Except.toOption]
  · simp [Except.toOption]
  · cases ht : goParseInt64 f0 <;> simp [ht, Except.toOption, List.getD]
  · simp [Except.toOption]

lemma parseLineWeb_none_iff (line : String) :
    parseLineWeb line = none ↔
      ((goFields line).length < 4 ∨
        goParseInt64 ((goFields line).getD 0 "") = none) := by
  unfold parseLineWeb parseLineWebE
  by_cases h : (goFields line).length < 4
  · simp [h, Except.toOption]
  · cases ht : goParseInt64 ((goFields line).getD 0 "") <;>
      simp only [List.getD_eq_getElem?_getD] at ht <;>
      simp [h, ht, Except.toOption, List.getD]

/-! ## Claim theorems -/

/-- Claim C1: for every line that is well-formed for the given variant
(field count accepted by that variant, first field a base-10 integer),
parsing yields exactly one record mapping positionally: field 0 the
decoded expiry timestamp, field 1 the MAC, field 2 the IP, field 3 the
hostname (with the web variant's sentinel normalization), field 4 the
client ID (present, or defaulted in the web variant); in particular the
example line yields the stated record. -/
theorem claim1_wellformed_line_positional_mapping :
    (∀ line f0 f1 f2 f3 f4 t,
        goFields line = [f0, f1, f2, f3, f4] →
        goParseInt64 f0 = some t →
        parseLineCLI line = some ⟨t, f1, f2, f3, f4⟩ ∧
        parseLineWeb line =
          some ⟨t, f1, f2, if f3 = "*" then "N/A" else f3, f4⟩) ∧
    (∀ line f0 f1 f2 f3 t,
        goFields line = [f0, f1, f2, f3] →
        goParseInt64 f0 = some t →
        parseLineWeb line =
          some ⟨t, f1, f2, if f3 = "*" then "N/A" else f3, "N/A"⟩) ∧
    parseLeasesCLI
        ["1700000000 aa:bb:cc:dd:ee:ff 192.168.1.50 myhost 01:aa:bb:cc:dd:ee:ff"] =
      [⟨1700000000, "aa:bb:cc:dd:ee:ff", "192.168.1.50", "myhost",
        "01:aa:bb:cc:dd:ee:ff"⟩] ∧
    parseLeasesWebLines
        ["1700000000 aa:bb:cc:dd:ee:ff 192.168.1.50 myhost 01:aa:bb:cc:dd:ee:ff"] =
      [⟨1700000000, "aa:bb:cc:dd:ee:ff", "192.168.1.50", "myhost",
        "01:aa:bb:cc:dd:ee:ff"⟩] := by
  refine ⟨?_, ?_, by decide, by decide⟩
  · intro line f0 f1 f2 f3 f4 t hf ht
    exact ⟨parseLineCLI_ok line f0 f1 f2 f3 f4 t hf ht,
      parseLineWeb_ok5 line f0 f1 f2 f3 f4 t hf ht⟩
  · intro line f0 f1 f2 f3 t hf ht
    exact parseLineWeb_ok4 line f0 f1 f2 f3 t hf ht

/-- Witness for C1 at the example line. -/
theorem claim1_wellformed_line_positional_mapping_witness :
    parseLineCLI
        "1700000000 aa:bb:cc:dd:ee:ff 192.168.1.50 myhost 01:aa:bb:cc:dd:ee:ff" =
      some ⟨1700000000, "aa:bb:cc:dd:ee:ff", "192.168.1.50", "myhost",
        "01:aa:bb:cc:dd:ee:ff"⟩ := by
  exact (claim1_wellformed_line_positional_mapping.1
    "1700000000 aa:bb:cc:dd:ee:ff 192.168.1.50 myhost 01:aa:bb:cc:dd:ee:ff"
    "1700000000" "aa:bb:cc:dd:ee:ff" "192.168.1.50" "myhost"
    "01:aa:bb:cc:dd:ee:ff" 1700000000 (by decide) (by decide)).1

/-- Claim C2: a line is skipped — contributing zero records, with exactly
one diagnostic, while the remaining lines are still processed and the
overall parse does not fail — if and only if its whitespace-split field
count is wrong for the variant (CLI: not exactly 5; web: fewer than 4) or
its first field does not parse as a base-10 integer. -/
theorem claim2_skip_iff_malformed :
    (∀ line,
        (parseLineCLI line = none ↔
          ((goFields line).length ≠ 5 ∨
            goParseInt64 ((goFields line).getD 0 "") = none)) ∧
        (parseLineWeb line = none ↔
          ((goFields line).length < 4 ∨
            goParseInt64 ((goFields line).getD 0 "") = none))) ∧
    (∀ lines,
        parseLeasesCLI lines = lines.filterMap parseLineCLI ∧
        (cliWarnings lines).length =
          lines.countP (fun l => (parseLineCLI l).isNone) ∧
        parseLeasesWebLines lines = lines.filterMap parseLineWeb ∧
        (webWarnings lines).length =
          lines.countP (fun l => (parseLineWeb l).isNone)) :=
  ⟨fun line => ⟨parseLineCLI_none_iff line, parseLineWeb_none_iff line⟩,
    fun lines => ⟨parseLeasesCLI_eq lines, cliWarnings_length lines,
      parseLeasesWebLines_eq lines, webWarnings_length lines⟩⟩

/-- Claim C3: the record sequence is the in-order image of the valid lines
(no sorting, each record from exactly one valid line), parsing is
concatenative over the line list, and duplicate lease lines for one host
yield duplicate records (no deduplication by MAC or IP). -/
theorem claim3_order_preserved_no_dedup :
    (∀ lines,
        parseLeasesCLI lines = lines.filterMap parseLineCLI ∧
        parseLeasesWebLines lines = lines.filterMap parseLineWeb) ∧
    (∀ l1 l2,
        parseLeasesCLI (l1 ++ l2) = parseLeasesCLI l1 ++ parseLeasesCLI l2 ∧
        parseLeasesWebLines (l1 ++ l2) =
          parseLeasesWebLines l1 ++ parseLeasesWebLines l2) ∧
    (∀ line e, parseLineCLI line = some e →
        parseLeasesCLI [line, line] = [e, e]) ∧
    (∀ line e, parseLineWeb line = some e →
        parseLeasesWebLines [line, line] = [e, e]) := by
  refine ⟨fun lines => ⟨parseLeasesCLI_eq lines, parseLeasesWebLines_eq lines⟩,
    ?_, ?_, ?_⟩
  · intro l1 l2
    constructor
    · rw [parseLeasesCLI_eq, parseLeasesCLI_eq, parseLeasesCLI_eq,
        List.filterMap_append]
    · rw [parseLeasesWebLines_eq, parseLeasesWebLines_eq,
        parseLeasesWebLines_eq, List.filterMap_append]
  · intro line e h
    rw [parseLeasesCLI_eq]
    simp [List.filterMap_cons, h]
  · intro line e h
    rw [parseLeasesWebLines_eq]
    simp [List.filterMap_cons, h]

/-- Witness for C3: one host's duplicated lease line yields two records. -/
theorem claim3_order_preserved_no_dedup_witness :
    parseLeasesCLI ["100 aa bb cc dd", "100 aa bb cc dd"] =
      [⟨100, "aa", "bb", "cc", "dd"⟩, ⟨100, "aa", "bb", "cc", "dd"⟩] :=
  claim3_order_preserved_no_dedup.2.2.1 "100 aa bb cc dd"
    ⟨100, "aa", "bb", "cc", "dd"⟩ (by decide)

/-- Claim C4 counterexample: the claim says both front ends give
precedence to an environment variable override, but the web front end's
path is the compile-time constant `leasesFilePath`; with the override set
to `/tmp/override` it still resolves to the default path. -/
theorem claim4_env_override_counterexample :
    webLeaseFilePath (fun k => if k = envVarLeasePath then "/tmp/override" else "") =
      defaultLeaseFilePath ∧
    defaultLeaseFilePath ≠ "/tmp/override" :=
  ⟨rfl, by decide⟩

/-- Claim C4 amended: the CLI front end resolves the lease file path by
giving precedence to a non-empty `DNSMASQ_LEASES` environment value and
falling back to the fixed default when it is unset (empty); the web front
end always uses the fixed default path, ignoring the environment. -/
theorem claim4_env_override_amended :
    (∀ g : String → String, g envVarLeasePath ≠ "" →
        cliLeaseFilePath g = g envVarLeasePath) ∧
    (∀ g : String → String, g envVarLeasePath = "" →
        cliLeaseFilePath g = defaultLeaseFilePath) ∧
    (∀ g : String → String, webLeaseFilePath g = leasesFilePath) ∧
    leasesFilePath = defaultLeaseFilePath := by
  refine ⟨?_, ?_, fun g => rfl, rfl⟩
  · intro g h
    unfold cliLeaseFilePath
    rw [if_neg h]
  · intro g h
    unfold cliLeaseFilePath
    rw [if_pos h]

/-- Witness for the amended C4 at concrete environments. -/
theorem claim4_env_override_witness :
    cliLeaseFilePath (fun k => if k = "DNSMASQ_LEASES" then "/etc/leases.alt" else "") =
      "/etc/leases.alt" ∧
    cliLeaseFilePath (fun _ => "") = defaultLeaseFilePath := by
  constructor
  · have h := claim4_env_override_amended.1
      (fun k => if k = "DNSMASQ_LEASES" then "/etc/leases.alt" else "") (by decide)
    simpa [envVarLeasePath] using h
  · exact claim4_env_override_amended.2.1 (fun _ => "") rfl

/-- Claim C5 counterexample: with an empty record sequence the CLI prints
only the no-entries message and exits 0 — the header row and separator
row are not emitted, contrary to the claim that they are emitted
anyway. -/
theorem claim5_empty_table_counterexample :
    cliRun (fun _ => "") (.content [] none) = (0, [[noEntriesMessage]]) ∧
    cliHeaderRow ∉ (cliRun (fun _ => "") (.content [] none)).2 ∧
    cliSeparatorRow ∉ (cliRun (fun _ => "") (.content [] none)).2 := by
  refine ⟨rfl, by decide, by decide⟩

/-- Claim C5 amended: when the parsed record sequence is empty, the CLI
emits the explicit no-entries message instead of a table and exits with
status zero; the header row and separator row are emitted only when at
least one record was parsed. -/
theorem claim5_empty_table_amended :
    (∀ fmtTime lines, parseLeasesCLI lines = [] →
        cliRun fmtTime (.content lines none) = (0, [[noEntriesMessage]])) ∧
    (∀ fmtTime lines e rest, parseLeasesCLI lines = e :: rest →
        cliRun fmtTime (.content lines none) =
          (0, cliHeaderRow :: cliSeparatorRow ::
            (e :: rest).map (cliRow fmtTime))) := by
  constructor
  · intro fmtTime lines h
    unfold cliRun
    simp [h]
  · intro fmtTime lines e rest h
    unfold cliRun
    simp [h]

/-- Witness for the amended C5: an all-malformed file gives the message
and exit 0; a one-lease file gives header, separator and one row. -/
theorem claim5_empty_table_witness :
    cliRun (fun _ => "epoch") (.content ["garbage line"] none) =
      (0, [[noEntriesMessage]]) ∧
    cliRun (fun _ => "epoch") (.content ["100 aa bb cc dd"] none) =
      (0, [cliHeaderRow, cliSeparatorRow, ["epoch", "aa", "bb", "cc", "dd"]]) := by
  constructor
  · exact claim5_empty_table_amended.1 _ _ (by decide)
  · have h := claim5_empty_table_amended.2 (fun _ => "epoch") ["100 aa bb cc dd"]
      ⟨100, "aa", "bb", "cc", "dd"⟩ [] (by decide)
    simpa [cliRow] using h

/-- Claim C6: the 4-field line with hostname `*` and no client ID parses
to exactly one record whose hostname is the unknown-placeholder `N/A` and
whose client ID defaults to `N/A` (in the lenient variant, the one that
accepts 4-field lines and performs the defaulting). -/
theorem claim6_star_hostname_defaulted :
    parseLineWeb "1700000000 aa:bb:cc:dd:ee:ff 192.168.1.50 *" =
      some ⟨1700000000, "aa:bb:cc:dd:ee:ff", "192.168.1.50", "N/A", "N/A"⟩ ∧
    parseLeasesWebLines ["1700000000 aa:bb:cc:dd:ee:ff 192.168.1.50 *"] =
      [⟨1700000000, "aa:bb:cc:dd:ee:ff", "192.168.1.50", "N/A", "N/A"⟩] := by
  constructor <;> decide

lemma errorBody_shape (p q path c s : String) :
    p ++ (q ++ path ++ ": " ++ c) ++ s = (p ++ q) ++ path ++ (": " ++ c ++ s) := by
  simp [String.append_assoc]

/-- Claim C7: on every request whose parse fails (open failure or read
error), the web handler responds with status 500 and a human-readable
error body that names the configured path; the status is 500 exactly when
the parse fails, and a successful response is rendered from the fresh
parse of the current file state (the handler has no other input, hence no
cached or stale data). -/
theorem claim7_parse_failure_http500 :
    (∀ fmtTime fs,
        ((leaseHandler fmtTime fs).status = 500 ↔
          ∃ e, parseLeases leasesFilePath fs = .error e)) ∧
    (∀ fmtTime cause, ∃ a b,
        (leaseHandler fmtTime (.openFailure cause)).body =
          .errorText (a ++ leasesFilePath ++ b)) ∧
    (∀ fmtTime lines cause, ∃ a b,
        (leaseHandler fmtTime (.content lines (some cause))).body =
          .errorText (a ++ leasesFilePath ++ b)) ∧
    (∀ fmtTime fs leases,
        parseLeases leasesFilePath fs = .ok leases →
        leaseHandler fmtTime fs =
          ⟨200, .htmlPage (htmlTableBody fmtTime leases) leasesFilePath⟩) := by
  refine ⟨?_, ?_, ?_, ?_⟩
  · intro fmtTime fs
    unfold leaseHandler
    cases h : parseLeases leasesFilePath fs <;> simp [h]
  · intro fmtTime cause
    exact ⟨"Не удалось прочитать или обработать файл leases: " ++
      "не удалось открыть файл ", ": " ++ cause ++ "\n",
      congrArg ResponseBody.errorText
        (errorBody_shape _ "не удалось открыть файл " leasesFilePath cause _)⟩
  · intro fmtTime lines cause
    exact ⟨"Не удалось прочитать или обработать файл leases: " ++
      "ошибка при чтении файла ", ": " ++ cause ++ "\n",
      congrArg ResponseBody.errorText
        (errorBody_shape _ "ошибка при чтении файла " leasesFilePath cause _)⟩
  · intro fmtTime fs leases h
    unfold leaseHandler
    rw [h]

/-- Witness for C7: a request on an empty file state is served fresh with
status 200 and the template's single empty row. -/
theorem claim7_parse_failure_http500_witness :
    leaseHandler (fun _ => "t") (.content [] none) =
      ⟨200, .htmlPage [["Нет активных аренд или не удалось прочитать файл."]]
        leasesFilePath⟩ := by
  have h := claim7_parse_failure_http500.2.2.2 (fun _ => "t")
    (.content [] none) [] rfl
  simpa [htmlTableBody] using h

/-- Claim C8: parsing the same unchanged file contents twice yields an
identical record sequence (and identical diagnostics).  In the source
neither variant keeps state across runs — the CLI's `leases` slice is
local to `main` and the web handler re-parses per request — so a run is a
pure function of the file contents and two runs on equal contents are the
same computation. -/
theorem claim8_parse_idempotent :
    ∀ lines path fs,
      parseLeasesCLI lines = parseLeasesCLI lines ∧
      cliWarnings lines = cliWarnings lines ∧
      parseLeasesWebLines lines = parseLeasesWebLines lines ∧
      parseLeases path fs = parseLeases path fs :=
  fun _ _ _ => ⟨rfl, rfl, rfl, rfl⟩

/-- Claim C9: when the scanner reports a read error after delivering some
lines, `parseLeases` returns `(nil, err)`: the error value alone, with
every record the loop had already accumulated discarded — this holds for
every prefix of delivered lines, including ones that parsed records;
without a read error the same lines yield the accumulated records. -/
theorem claim9_read_error_discards_partial :
    ∀ path lines cause,
      parseLeases path (.content lines (some cause)) =
        .error (.readFailed path cause) ∧
      parseLeases path (.content lines none) =
        .ok (parseLeasesWebLines lines) :=
  fun _ _ _ => ⟨rfl, rfl⟩

/-- Claim C10: the web variant normalizes only the hostname sentinel
(`*` becomes `N/A`) and defaults a missing fifth field to `N/A`, while a
present client ID equal to `*` is kept verbatim; the CLI variant
normalizes neither hostname nor client ID. -/
theorem claim10_sentinel_normalization :
    (∀ line f0 f1 f2 f4 t,
        goFields line = [f0, f1, f2, "*", f4] →
        goParseInt64 f0 = some t →
        parseLineWeb line = some ⟨t, f1, f2, "N/A", f4⟩ ∧
        parseLineCLI line = some ⟨t, f1, f2, "*", f4⟩) ∧
    (∀ line f0 f1 f2 f3 t,
        goFields line = [f0, f1, f2, f3] →
        goParseInt64 f0 = some t →
        parseLineWeb line =
          some ⟨t, f1, f2, if f3 = "*" then "N/A" else f3, "N/A"⟩) := by
  constructor
  · intro line f0 f1 f2 f4 t hf ht
    constructor
    · have h := parseLineWeb_ok5 line f0 f1 f2 "*" f4 t hf ht
      simpa using h
    · exact parseLineCLI_ok line f0 f1 f2 "*" f4 t hf ht
  · exact fun line f0 f1 f2 f3 t hf ht =>
      parseLineWeb_ok4 line f0 f1 f2 f3 t hf ht

/-- Witness for C10: a 5-field line with both sentinels: the web variant
normalizes the hostname but keeps the client ID `*`; the CLI keeps
both. -/
theorem claim10_sentinel_normalization_witness :
    parseLineWeb "1700000001 11:22:33:44:55:66 10.0.0.7 * *" =
      some ⟨1700000001, "11:22:33:44:55:66", "10.0.0.7", "N/A", "*"⟩ ∧
    parseLineCLI "1700000001 11:22:33:44:55:66 10.0.0.7 * *" =
      some ⟨1700000001, "11:22:33:44:55:66", "10.0.0.7", "*", "*"⟩ :=
  claim10_sentinel_normalization.1 "1700000001 11:22:33:44:55:66 10.0.0.7 * *"
    "1700000001" "11:22:33:44:55:66" "10.0.0.7" "*" 1700000001
    (by decide) (by decide)
